import Mathlib

set_option maxRecDepth 8192

namespace Medplum

/- ===================================================================
   String helpers.
   The TypeScript source operates on JavaScript strings. We model the
   handful of JS string operations used by the code as explicit Lean
   functions over the character list of a string, so that every
   definition is executable and kernel-reducible.
   =================================================================== -/

/-- JS String.prototype.endsWith: suffix test on the character sequence. -/
def strEndsWith (s suffix : String) : Bool :=
  List.isSuffixOf suffix.data s.data

/-- JS String.prototype.startsWith: prefix test on the character sequence. -/
def strStartsWith (s pre : String) : Bool :=
  List.isPrefixOf pre.data s.data

/-- JS String.prototype.toLowerCase / toLocaleLowerCase, character-wise. -/
def strToLower (s : String) : String :=
  String.mk (s.data.map Char.toLower)

/-- JS String.prototype.trim: strip leading and trailing whitespace. -/
def strTrim (s : String) : String :=
  String.mk (((s.data.dropWhile Char.isWhitespace).reverse.dropWhile Char.isWhitespace).reverse)

/-- JS String.prototype.split with a single-character separator:
"a-b-".split(c) keeps trailing empty fields, "".split(c) = [""]. -/
def splitOnChar (s : String) (c : Char) : List String :=
  let p := s.data.foldl
    (fun (acc : List String × List Char) ch =>
      if ch = c then (acc.1 ++ [String.mk acc.2.reverse], []) else (acc.1, ch :: acc.2))
    ([], [])
  p.1 ++ [String.mk p.2.reverse]

/-- Array.prototype.join with a separator string. -/
def joinWith (sep : String) : List String → String
  | [] => ""
  | [s] => s
  | s :: rest => s ++ sep ++ joinWith sep rest

/-- JavaScript string truthiness: undefined and the empty string are falsy. -/
def strTruthy : Option String → Bool
  | some s => !s.data.isEmpty
  | none => false

/-- capitalize from packages/core utils (not under src/): upper-case the first character. -/
def capitalize (s : String) : String :=
  match s.data with
  | [] => ""
  | c :: rest => String.mk (c.toUpper :: rest)

/- ===================================================================
   Data model of the search-parameter compiler
   (packages/core/src/search/details.ts).
   =================================================================== -/

/-- SearchParameter resource fields used by the compiler and the token
subsystem. The source casts code and expression with "as string", so we
model them as always-present strings. -/
structure SearchParameter where
  id : String
  code : String
  type : String
  expression : String
deriving DecidableEq

/-- One entry of ElementDefinition.type / InternalSchemaElement.type:
the resolved property type code. -/
structure ElementDefinitionTypeRef where
  code : String
deriving DecidableEq

/-- InternalSchemaElement (packages/core typeschema): the fields read by
the compiler: array cardinality and the list of declared types. -/
structure InternalSchemaElement where
  isArray : Bool
  type : List ElementDefinitionTypeRef
deriving DecidableEq

/-- JS Set of strings modelled as an insertion-ordered duplicate-free
list: adding an element already present is a no-op. -/
def insertPropertyType (l : List String) (s : String) : List String :=
  if s ∈ l then l else l ++ [s]

/-- SearchParameterDetailsBuilder from details.ts: the mutable
accumulator of the per-expression schema walk. -/
structure SearchParameterDetailsBuilder where
  elementDefinitions : List InternalSchemaElement
  propertyTypes : List String
  array : Bool
deriving DecidableEq

/-- SearchParameterType enum from details.ts. -/
inductive SearchParameterType where
  | BOOLEAN | NUMBER | QUANTITY | TEXT | REFERENCE | CANONICAL | DATE | DATETIME | PERIOD | UUID
deriving DecidableEq

/-- The implementation (storage strategy) field of SearchParameterDetails:
column = inline column, lookupTable = side lookup table,
tokenColumns = token columns. -/
inductive Implementation where
  | column | lookupTable | tokenColumns
deriving DecidableEq

/-- SearchParameterDetails from details.ts (the compiled plan). -/
structure SearchParameterDetails where
  columnName : String
  type : SearchParameterType
  elementDefinitions : List InternalSchemaElement
  array : Bool
  implementation : Implementation
deriving DecidableEq

/-- convertCodeToColumnName from details.ts: hyphen-delimited code to
camelCase (the first word keeps its case, later words are capitalized). -/
def convertCodeToColumnName (code : String) : String :=
  match splitOnChar code '-' with
  | [] => ""
  | w :: ws => ws.foldl (fun result word => result ++ capitalize word) w

/-- getSearchParameterType from details.ts: derive the semantic type from
the declared SearchParameter.type and the narrowed property-type set. -/
def getSearchParameterType (searchParam : SearchParameter) (propertyTypes : List String) :
    SearchParameterType :=
  if searchParam.type = "date" then
    if propertyTypes.length = 1 ∧ "date" ∈ propertyTypes then .DATE else .DATETIME
  else if searchParam.type = "number" then .NUMBER
  else if searchParam.type = "quantity" then .QUANTITY
  else if searchParam.type = "reference" then
    if "canonical" ∈ propertyTypes then .CANONICAL else .REFERENCE
  else if searchParam.type = "token" then
    if propertyTypes.length = 1 ∧ "boolean" ∈ propertyTypes then .BOOLEAN else .TEXT
  else .TEXT

/-- The HumanName lookup parameter ids from isLookupTableParam. -/
def nameParams : List String :=
  ["individual-given", "individual-family", "Patient-name", "Person-name",
   "Practitioner-name", "RelatedPerson-name"]

/-- The telecom lookup parameter ids from isLookupTableParam. -/
def telecomParams : List String :=
  ["individual-telecom", "individual-email", "individual-phone",
   "OrganizationAffiliation-telecom", "OrganizationAffiliation-email",
   "OrganizationAffiliation-phone"]

/-- The address lookup parameter ids from isLookupTableParam. -/
def addressParams : List String :=
  ["individual-address", "InsurancePlan-address", "Location-address", "Organization-address"]

/-- The element-type check inside isTokenParam: any resolved element
definition declares Identifier, CodeableConcept, Coding or ContactPoint. -/
def hasTokenColumnsElementType (elementDefinitions : List InternalSchemaElement) : Bool :=
  elementDefinitions.any fun elementDefinition =>
    elementDefinition.type.any fun t =>
      t.code == "Identifier" || t.code == "CodeableConcept" ||
        t.code == "Coding" || t.code == "ContactPoint"

/-- isTokenParam from details.ts. -/
def isTokenParam (searchParam : SearchParameter) (builder : SearchParameterDetailsBuilder) :
    Bool :=
  if searchParam.type = "token" then
    if strEndsWith searchParam.code ":identifier" then true
    else hasTokenColumnsElementType builder.elementDefinitions
  else false

/-- isLookupTableParam from details.ts. The builder argument is only used
by a fully commented-out isTokenParam branch in the source, so it is
unused here as well. -/
def isLookupTableParam (searchParam : SearchParameter)
    (_builder : SearchParameterDetailsBuilder) : Bool :=
  if searchParam.id ∈ nameParams then true
  else if searchParam.id ∈ telecomParams then true
  else if searchParam.id ∈ addressParams then true
  else if strStartsWith searchParam.code "address-" then true
  else false

/-- The implementation classification at the end of
buildSearchParameterDetails: lookup-table, else token-columns, else column. -/
def classifyImplementation (searchParam : SearchParameter)
    (builder : SearchParameterDetailsBuilder) : Implementation :=
  if isLookupTableParam searchParam builder then .lookupTable
  else if isTokenParam searchParam builder then .tokenColumns
  else .column

/- ===================================================================
   Path expression model (packages/core fhirpath atoms) and the schema
   walk of details.ts. Parsing a FHIRPath string into an atom tree
   (parseFhirPath, not under src/) is abstracted: expressions enter as
   already-parsed atom trees.
   =================================================================== -/

/-- The atom variants inspected by details.ts: plain path steps (sym),
DotAtom, AsAtom, IndexerAtom, BooleanInfixOperatorAtom, FunctionAtom,
IsAtom and UnionAtom. The right-hand side of an as-cast or is-test and
the indexer expression are kept as their rendered strings, which is all
the source reads of them. -/
inductive Atom where
  | sym (name : String)
  | dot (left right : Atom)
  | asType (left : Atom) (right : String)
  | indexer (left : Atom) (index : String)
  | booleanOp (left : Atom) (operator : String) (right : Atom)
  | fn (name : String) (args : List Atom)
  | isType (left : Atom) (right : String)
  | unionOp (left right : Atom)

mutual

/-- Atom.toString: the rendered form of an atom, as used for propertyName
lookups and the joined flattened-expression suffix checks. -/
def Atom.toStr : Atom → String
  | .sym n => n
  | .dot l r => l.toStr ++ "." ++ r.toStr
  | .asType l r => l.toStr ++ " as " ++ r
  | .indexer l i => l.toStr ++ "[" ++ i ++ "]"
  | .booleanOp l op r => l.toStr ++ " " ++ op ++ " " ++ r.toStr
  | .fn n args => n ++ "(" ++ joinWith ", " (Atom.toStrList args) ++ ")"
  | .isType l r => l.toStr ++ " is " ++ r
  | .unionOp l r => l.toStr ++ " | " ++ r.toStr

/-- Rendered forms of a list of atoms (function arguments). -/
def Atom.toStrList : List Atom → List String
  | [] => []
  | a :: rest => a.toStr :: Atom.toStrList rest

end

/-- Whether the head of a FunctionAtom argument list is an IsAtom
(the "where(resolve() is T)" pattern). -/
def isIsAtomHead : List Atom → Bool
  | .isType _ _ :: _ => true
  | _ => false

/-- flattenAtom from details.ts: flatten a parsed expression into the
linear list of steps walked by the compiler, dropping plain where(...)
filters and last() steps. -/
def flattenAtom : Atom → List Atom
  | .asType l r => flattenAtom l ++ [.asType l r]
  | .indexer l i => flattenAtom l ++ [.indexer l i]
  | .booleanOp l op r => [.booleanOp l op r]
  | .dot l r => flattenAtom l ++ flattenAtom r
  | .fn n args => if (n = "where" ∧ isIsAtomHead args = false) ∨ n = "last" then []
      else [.fn n args]
  | a => [a]

/-- atomArray.join(".") from details.ts (the lazily computed
flattenedExpression). -/
def flattenedExpressionString (atomArray : List Atom) : String :=
  joinWith "." (atomArray.map Atom.toStr)

/-- Whether the flattened list is a single BooleanInfixOperatorAtom. -/
def isSingleBooleanOp : List Atom → Bool
  | [.booleanOp _ _ _] => true
  | _ => false

/-- Modelled from the spec: the structural schema lookup collaborator
resolveElement(resourceType, propertyName) -> ElementDefinition or
not-found (getElementDefinition from packages/core types, which is not
under src/), threaded through the compiler as a function parameter. -/
def Schema : Type := String → String → Option InternalSchemaElement

/-- The atoms[nextIndex] instanceof IndexerAtom lookahead of the crawl. -/
def isIndexerAtomOpt : Option Atom → Bool
  | some (.indexer _ _) => true
  | _ => false

/-- isBackboneElement from details.ts. -/
def isBackboneElement (propertyType : String) : Bool :=
  propertyType == "Element" || propertyType == "BackboneElement"

/-- handleFunctionAtom from details.ts: as/ofType/resolve and the
where(... is T) pattern narrow the property type; every other function is
a configuration error ("Unhandled FHIRPath function"). -/
def handleFunctionAtom (builder : SearchParameterDetailsBuilder) (name : String)
    (args : List Atom) : Except String SearchParameterDetailsBuilder :=
  if name = "as" ∨ name = "ofType" then
    match args.head? with
    | some a =>
        .ok { builder with propertyTypes := insertPropertyType builder.propertyTypes a.toStr }
    | none => .error ("Unhandled FHIRPath function: " ++ name)
  else if name = "resolve" then
    .ok { builder with propertyTypes := insertPropertyType builder.propertyTypes "string" }
  else if name = "where" then
    match args.head? with
    | some (.isType _ r) =>
        .ok { builder with propertyTypes := insertPropertyType builder.propertyTypes r }
    | _ => .error ("Unhandled FHIRPath function: " ++ name)
  else .error ("Unhandled FHIRPath function: " ++ name)

/-- crawlSearchParameterDetails from details.ts: walk the flattened atoms
against the schema starting at the given index, accumulating element
definitions, property types and array-ness. The recursion of the source
is bounded by the number of atoms; the extra fuel argument makes that
bound explicit (callers pass atoms.length + 1, which always suffices
because the index strictly increases on every recursive call). -/
def crawlSearchParameterDetails (schema : Schema) (fuel : Nat)
    (builder : SearchParameterDetailsBuilder) (atoms : List Atom) (baseType : String)
    (index : Nat) : Except String SearchParameterDetailsBuilder :=
  match fuel with
  | 0 => .error "recursion fuel exhausted"
  | fuel + 1 =>
    match atoms[index]? with
    | none => .error "missing atom"
    | some (.asType _ r) =>
        .ok { builder with propertyTypes := insertPropertyType builder.propertyTypes r }
    | some (.fn name args) => handleFunctionAtom builder name args
    | some currAtom =>
      let propertyName := currAtom.toStr
      match schema baseType propertyName with
      | none => .error ("Element definition not found for " ++ baseType ++ " " ++ propertyName)
      | some elementDefinition =>
        let hasArrayIndex : Bool := isIndexerAtomOpt atoms[index + 1]?
        let nextIndex : Nat := if hasArrayIndex = true then index + 2 else index + 1
        let builder :=
          if elementDefinition.isArray && !hasArrayIndex then { builder with array := true }
          else builder
        if nextIndex ≥ atoms.length then
          .ok { builder with
                elementDefinitions := builder.elementDefinitions ++ [elementDefinition],
                propertyTypes := elementDefinition.type.foldl
                  (fun acc t => insertPropertyType acc t.code) builder.propertyTypes }
        else
          elementDefinition.type.foldlM
            (fun acc t =>
              let propertyType :=
                if isBackboneElement t.code then
                  (elementDefinition.type.head?.elim t.code fun t0 => t0.code)
                else t.code
              crawlSearchParameterDetails schema fuel acc atoms propertyType nextIndex)
            builder

/-- One iteration of the expression loop of buildSearchParameterDetails:
the single-BooleanInfixOperatorAtom case, the two "extension value code"
special cases that skip the schema walk, the generic crawl, and the
trailing "extension.valueDateTime" array reset. -/
def processExpression (schema : Schema) (resourceType : String)
    (builder : SearchParameterDetailsBuilder) (expression : Atom) :
    Except String SearchParameterDetailsBuilder :=
  let atomArray := flattenAtom expression
  let flattenedExpression := flattenedExpressionString atomArray
  let afterMain : Except String SearchParameterDetailsBuilder :=
    if isSingleBooleanOp atomArray then
      .ok { builder with propertyTypes := insertPropertyType builder.propertyTypes "boolean" }
    else if strEndsWith flattenedExpression "extension.value.code" ||
        strEndsWith flattenedExpression "extension.value.coding.code" then
      .ok { builder with
            array := true,
            propertyTypes := insertPropertyType builder.propertyTypes "code" }
    else
      crawlSearchParameterDetails schema (atomArray.length + 1) builder atomArray resourceType 1
  afterMain.map fun b =>
    if strEndsWith flattenedExpression "extension.valueDateTime" then { b with array := false }
    else b

/-- The expression loop of buildSearchParameterDetails, starting from the
empty builder. -/
def buildSearchParameterBuilder (schema : Schema) (resourceType : String)
    (expressions : List Atom) : Except String SearchParameterDetailsBuilder :=
  expressions.foldlM (processExpression schema resourceType)
    { elementDefinitions := [], propertyTypes := [], array := false }

/-- buildSearchParameterDetails from details.ts. The expressions argument
is the list produced by getExpressionsForResourceType (the parse of
searchParam.expression is abstracted, see getExpressionsForResourceType). -/
def buildSearchParameterDetails (schema : Schema) (resourceType : String)
    (searchParam : SearchParameter) (expressions : List Atom) :
    Except String SearchParameterDetails :=
  (buildSearchParameterBuilder schema resourceType expressions).map fun builder =>
    { columnName := convertCodeToColumnName searchParam.code
      type := getSearchParameterType searchParam builder.propertyTypes
      elementDefinitions := builder.elementDefinitions
      array := builder.array
      implementation := classifyImplementation searchParam builder }

/-- buildExpressionsForResourceType from details.ts: split unions and keep
the clauses whose rendered form starts with "resourceType.". -/
def buildExpressionsForResourceType (resourceType : String) : Atom → List Atom
  | .unionOp l r =>
      buildExpressionsForResourceType resourceType l ++
        buildExpressionsForResourceType resourceType r
  | atom => if strStartsWith atom.toStr (resourceType ++ ".") then [atom] else []

/-- getExpressionsForResourceType from details.ts, with parseFhirPath
(not under src/) abstracted: the caller passes the parsed atom tree of
the SearchParameter expression. -/
def getExpressionsForResourceType (resourceType : String) (parsedExpression : Atom) :
    List Atom :=
  buildExpressionsForResourceType resourceType parsedExpression

/- ===================================================================
   The compiled-plan cache (globalSchema.types[...].searchParamsDetails),
   modelled as an explicit association list keyed by (resourceType, code).
   =================================================================== -/

/-- The process-wide compiled-plan cache, keyed by (resourceType, code). -/
def DetailsCache : Type := List ((String × String) × SearchParameterDetails)

/-- Cache lookup: globalSchema.types[resourceType]?.searchParamsDetails?.[code]. -/
def lookupDetails : DetailsCache → String → String → Option SearchParameterDetails
  | [], _, _ => none
  | (key, d) :: rest, resourceType, code =>
    if key = (resourceType, code) then some d else lookupDetails rest resourceType code

/-- setSearchParameterDetails from details.ts: store a compiled plan in
the cache under (resourceType, code). -/
def setSearchParameterDetails (cache : DetailsCache) (resourceType code : String)
    (details : SearchParameterDetails) : DetailsCache :=
  ((resourceType, code), details) :: cache

/-- getSearchParameterDetails from details.ts: return the cached plan if
present, otherwise compile and store. The cache is threaded explicitly in
place of the process-wide globalSchema. -/
def getSearchParameterDetails (schema : Schema) (cache : DetailsCache)
    (resourceType : String) (searchParam : SearchParameter) (expressions : List Atom) :
    Except String (SearchParameterDetails × DetailsCache) :=
  match lookupDetails cache resourceType searchParam.code with
  | some result => .ok (result, cache)
  | none =>
    (buildSearchParameterDetails schema resourceType searchParam expressions).map fun result =>
      (result, setSearchParameterDetails cache resourceType searchParam.code result)

/- ===================================================================
   Token extraction (packages/server fhir/lookups token table module,
   src/unnamed/part_002).
   =================================================================== -/

/-- FHIR Identifier, the fields read by the token extractor. -/
structure Identifier where
  system : Option String
  value : Option String
deriving DecidableEq

/-- FHIR Coding, the fields read by the token extractor. -/
structure Coding where
  system : Option String
  code : Option String
  display : Option String
deriving DecidableEq

/-- FHIR CodeableConcept, the fields read by the token extractor. -/
structure CodeableConcept where
  text : Option String
  coding : Option (List Coding)
deriving DecidableEq

/-- FHIR ContactPoint, the fields read by the token extractor. -/
structure ContactPoint where
  system : Option String
  value : Option String
deriving DecidableEq

/-- LookupToken from the token table module. -/
structure LookupToken where
  code : String
  system : Option String
  value : Option String
deriving DecidableEq

/-- The TokenIndexTypes constants. -/
inductive TokenIndexType where
  | caseSensitive | caseInsensitive
deriving DecidableEq

/-- The first loop of getTokenIndexType: any resolved element definition
declares the ContactPoint type. -/
def hasContactPointElementType (elementDefinitions : List InternalSchemaElement) : Bool :=
  elementDefinitions.any fun elementDefinition =>
    elementDefinition.type.any fun t => t.code == "ContactPoint"

/-- The second loop of getTokenIndexType: any resolved element definition
declares Identifier, CodeableConcept or Coding. -/
def hasCaseSensitiveElementType (elementDefinitions : List InternalSchemaElement) : Bool :=
  elementDefinitions.any fun elementDefinition =>
    elementDefinition.type.any fun t =>
      t.code == "Identifier" || t.code == "CodeableConcept" || t.code == "Coding"

/-- getTokenIndexType from the token table module. The source fetches
details.elementDefinitions through getSearchParameterDetails(resourceType,
searchParam); the resolved element definition list is threaded here as an
explicit argument. -/
def getTokenIndexType (searchParam : SearchParameter)
    (elementDefinitions : List InternalSchemaElement) : Option TokenIndexType :=
  if searchParam.type ≠ "token" then none
  else if strEndsWith searchParam.code ":identifier" then some .caseSensitive
  else if elementDefinitions.isEmpty then none
  else if hasContactPointElementType elementDefinitions then some .caseInsensitive
  else if hasCaseSensitiveElementType elementDefinitions then some .caseSensitive
  else none

/-- isCaseSensitiveSearchParameter from the token table module. -/
def isCaseSensitiveSearchParameter (param : SearchParameter)
    (elementDefinitions : List InternalSchemaElement) : Bool :=
  getTokenIndexType param elementDefinitions == some TokenIndexType.caseSensitive

/-- buildSimpleToken from the token table module: append one token unless
both system and value are falsy or an identical (code, system, value)
candidate is already in the list; a truthy value is lower-cased when the
parameter is not case-sensitive. -/
def buildSimpleToken (result : List LookupToken) (searchParam : SearchParameter)
    (caseSensitive : Bool) (system : Option String) (value : Option String) :
    List LookupToken :=
  if (strTruthy system || strTruthy value) &&
      !(result.any fun token =>
        token.code == searchParam.code && token.system == system && token.value == value) then
    result ++ [{ code := searchParam.code,
                 system := system,
                 value := if strTruthy value && !caseSensitive then value.map strToLower
                   else value }]
  else result

/-- buildIdentifierToken from the token table module. -/
def buildIdentifierToken (result : List LookupToken) (searchParam : SearchParameter)
    (caseSensitive : Bool) (identifier : Option Identifier) : List LookupToken :=
  buildSimpleToken result searchParam caseSensitive (identifier.bind Identifier.system)
    (identifier.bind Identifier.value)

/-- buildCodingToken from the token table module. -/
def buildCodingToken (result : List LookupToken) (searchParam : SearchParameter)
    (caseSensitive : Bool) (coding : Option Coding) : List LookupToken :=
  match coding with
  | none => result
  | some c =>
    let result :=
      if strTruthy c.display then
        buildSimpleToken result searchParam caseSensitive (some "text") c.display
      else result
    buildSimpleToken result searchParam caseSensitive c.system c.code

/-- buildCodeableConceptToken from the token table module. -/
def buildCodeableConceptToken (result : List LookupToken) (searchParam : SearchParameter)
    (caseSensitive : Bool) (codeableConcept : Option CodeableConcept) : List LookupToken :=
  let result :=
    if strTruthy (codeableConcept.bind CodeableConcept.text) then
      buildSimpleToken result searchParam caseSensitive (some "text")
        (codeableConcept.bind CodeableConcept.text)
    else result
  match codeableConcept.bind CodeableConcept.coding with
  | some codings =>
      codings.foldl (fun acc c => buildCodingToken acc searchParam caseSensitive (some c)) result
  | none => result

/-- buildContactPointToken from the token table module: the value is
lower-cased before buildSimpleToken when truthy. -/
def buildContactPointToken (result : List LookupToken) (searchParam : SearchParameter)
    (caseSensitive : Bool) (contactPoint : Option ContactPoint) : List LookupToken :=
  buildSimpleToken result searchParam caseSensitive (contactPoint.bind ContactPoint.system)
    (if strTruthy (contactPoint.bind ContactPoint.value) then
      (contactPoint.bind ContactPoint.value).map strToLower
    else contactPoint.bind ContactPoint.value)

/-- A typed value produced by the typed-value evaluator, as dispatched on
by buildTokens: the runtime shape tag together with the (possibly
undefined) value of that shape; every other shape is carried as its
stringified form. -/
inductive TypedValue where
  | identifierValue (v : Option Identifier)
  | codeableConceptValue (v : Option CodeableConcept)
  | codingValue (v : Option Coding)
  | contactPointValue (v : Option ContactPoint)
  | otherValue (v : Option String)
deriving DecidableEq

/-- buildTokens from the token table module: dispatch on the shape of one
typed value. The source computes caseSensitive per value through
isCaseSensitiveSearchParameter(searchParam, resource.resourceType); the
caller passes that (pure) result here. -/
def buildTokens (result : List LookupToken) (searchParam : SearchParameter)
    (caseSensitive : Bool) (typedValue : TypedValue) : List LookupToken :=
  match typedValue with
  | .identifierValue v => buildIdentifierToken result searchParam caseSensitive v
  | .codeableConceptValue v => buildCodeableConceptToken result searchParam caseSensitive v
  | .codingValue v => buildCodingToken result searchParam caseSensitive v
  | .contactPointValue v => buildContactPointToken result searchParam caseSensitive v
  | .otherValue v => buildSimpleToken result searchParam caseSensitive none v

/-- buildTokensForSearchParameter from the token table module. The
typed-value evaluator evalFhirPathTyped (packages/core, not under src/) is
an external collaborator per the spec and is passed as a function from the
parameter expression to its typed values on the resource being indexed. -/
def buildTokensForSearchParameter (result : List LookupToken) (searchParam : SearchParameter)
    (elementDefinitions : List InternalSchemaElement)
    (evalPath : String → List TypedValue) : List LookupToken :=
  let caseSensitive := isCaseSensitiveSearchParameter searchParam elementDefinitions
  (evalPath searchParam.expression).foldl
    (fun acc tv => buildTokens acc searchParam caseSensitive tv) result

/-- Modelled from the spec: deriveIdentifierSearchParameter
(fhir/lookups/util.ts, not under src/): a reference parameter implicitly
also indexes a derived identifier-shaped companion parameter whose code is
suffixed ":identifier" and whose declared type is token. -/
def deriveIdentifierSearchParameter (searchParam : SearchParameter) : SearchParameter :=
  { id := searchParam.id
    code := searchParam.code ++ ":identifier"
    type := "token"
    expression := searchParam.expression ++ ".identifier" }

/-- getTokens from the token table module: for every search parameter of
the resource type (getSearchParameters, external), index its tokens when
getTokenIndexType selects it, and additionally index the derived
identifier companion of every reference parameter. Each parameter is
paired with its resolved element definition list (see getTokenIndexType). -/
def getTokens (searchParams : List (SearchParameter × List InternalSchemaElement))
    (evalPath : String → List TypedValue) : List LookupToken :=
  searchParams.foldl
    (fun result sp =>
      let result :=
        if (getTokenIndexType sp.1 sp.2).isSome then
          buildTokensForSearchParameter result sp.1 sp.2 evalPath
        else result
      if sp.1.type = "reference" then
        buildTokensForSearchParameter result (deriveIdentifierSearchParameter sp.1) sp.2 evalPath
      else result)
    []

/- ===================================================================
   Query expression model. The Expression / SelectQuery / Column classes
   come from the SQL module (packages/server fhir/sql.ts, not under
   src/); they are plain operator/operand trees, modelled here as
   inductives per the spec (a boolean query expression tree handed to a
   generic query-expression renderer). Condition and TypedCondition are
   unified in the typedCondition constructor.
   =================================================================== -/

/-- Column from the SQL module: optional table qualifier, column name or
raw SQL text, raw flag, optional alias. -/
structure Column where
  tableName : Option String
  columnName : String
  raw : Bool
  aliasName : Option String
deriving DecidableEq

/-- SortRule from @medplum/core: sort code and direction. -/
structure SortRule where
  code : String
  descending : Bool
deriving DecidableEq

mutual

/-- The right-hand operand of a condition: a string literal, SQL NULL,
undefined, a string list, a column reference, or a subquery. -/
inductive SqlParam where
  | strParam (s : String)
  | nullParam
  | undefinedParam
  | listParam (l : List String)
  | colParam (c : Column)
  | queryParam (q : SelectQuery)

/-- The boolean query expression tree produced by the condition builder. -/
inductive Expression where
  | typedCondition (column : Column) (operator : String) (param : SqlParam)
      (paramType : Option String)
  | conjunction (expressions : List Expression)
  | disjunction (expressions : List Expression)
  | negation (expression : Expression)
  | sqlFunction (name : String) (args : List SelectQuery)

/-- A join clause of a SelectQuery. -/
inductive Join where
  | mk (joinType : String) (rhs : SelectQuery) (joinAlias : String) (onExpression : Expression)

/-- SelectQuery from the SQL module: table (or derived-table name), an
optional inner query, selected columns, where clauses, DISTINCT ON
columns, joins, order-by clauses and an optional limit. -/
inductive SelectQuery where
  | mk (tableName : String) (inner : Option SelectQuery) (columns : List Column)
      (whereClauses : List Expression) (distinctOns : List String)
      (joins : List Join) (orderBys : List (Column × Bool)) (limitCount : Option Nat)

end

/-- new SelectQuery(tableName, inner?). -/
def SelectQuery.new (tableName : String) (inner : Option SelectQuery) : SelectQuery :=
  .mk tableName inner [] [] [] [] [] none

/-- SelectQuery.column with a plain name: selects tableName.name. -/
def SelectQuery.columnStr : SelectQuery → String → SelectQuery
  | .mk t i cols ws d js os l, name =>
      .mk t i (cols ++ [{ tableName := some t, columnName := name, raw := false,
                          aliasName := none }]) ws d js os l

/-- SelectQuery.column with an explicit Column object. -/
def SelectQuery.columnC : SelectQuery → Column → SelectQuery
  | .mk t i cols ws d js os l, c => .mk t i (cols ++ [c]) ws d js os l

/-- SelectQuery.whereExpr: append a where expression. -/
def SelectQuery.whereExprAppend : SelectQuery → Expression → SelectQuery
  | .mk t i cols ws d js os l, e => .mk t i cols (ws ++ [e]) d js os l

/-- SelectQuery.where(name, op, value): append a simple condition on a
column of the query table. -/
def SelectQuery.whereStr : SelectQuery → String → String → String → SelectQuery
  | .mk t i cols ws d js os l, name, op, v =>
      .mk t i cols
        (ws ++ [.typedCondition
          { tableName := some t, columnName := name, raw := false, aliasName := none }
          op (.strParam v) none]) d js os l

/-- SelectQuery.limit. -/
def SelectQuery.limit : SelectQuery → Nat → SelectQuery
  | .mk t i cols ws d js os _, n => .mk t i cols ws d js os (some n)

/-- SelectQuery.distinctOn. -/
def SelectQuery.distinctOnAppend : SelectQuery → String → SelectQuery
  | .mk t i cols ws d js os l, s => .mk t i cols ws (d ++ [s]) js os l

/-- The joins of a SelectQuery. -/
def SelectQuery.joins : SelectQuery → List Join
  | .mk _ _ _ _ _ js _ _ => js

/-- SelectQuery.getNextJoinAlias (SQL module, not under src/): a fresh
join alias derived from the number of joins so far. -/
def SelectQuery.getNextJoinAlias (q : SelectQuery) : String :=
  "T" ++ toString (q.joins.length + 1)

/-- SelectQuery.join(joinType, rhs, alias, onExpression). -/
def SelectQuery.joinAppend : SelectQuery → String → SelectQuery → String → Expression →
    SelectQuery
  | .mk t i cols ws d js os l, jt, rhs, jn, onE =>
      .mk t i cols ws d (js ++ [Join.mk jt rhs jn onE]) os l

/-- SelectQuery.orderBy(column, descending). -/
def SelectQuery.orderByAppend : SelectQuery → Column → Bool → SelectQuery
  | .mk t i cols ws d js os l, c, desc => .mk t i cols ws d js (os ++ [(c, desc)]) l

/- ===================================================================
   The token condition builder (src/unnamed/part_002).
   =================================================================== -/

/-- Operator from @medplum/core (not under src/): the search filter
operator kinds referenced by the token query code, plus the default
equality operator. -/
inductive FhirOperator where
  | equals | notOp | notEquals | missing | present | inOp | notIn | identifierOp
  | textOp | containsOp | exact
deriving DecidableEq

/-- Filter from @medplum/core: search filter code, operator and raw value. -/
structure Filter where
  code : String
  operator : FhirOperator
  value : String
deriving DecidableEq

/-- OperationOutcome, reduced to the fields that identify a structured
outcome: the outcome kind and a diagnostic message. -/
structure OperationOutcome where
  id : String
  details : String
deriving DecidableEq

/-- badRequest from @medplum/core: a structured bad-request outcome. -/
def badRequest (details : String) : OperationOutcome :=
  { id := "bad-request", details := details }

/-- USE_TOKEN_TABLE from the token table module: compile-time constant. -/
def USE_TOKEN_TABLE : Bool := false

/-- The reserved field delimiter byte of the encoded token representation. -/
def DELIM : String := "\x01"

/-- The reserved null-system sentinel byte. -/
def NULL_SYSTEM : String := "\x02"

/-- The reserved array-entry delimiter byte. -/
def ARRAY_DELIM : String := "\x03"

/-- getTableName from the token table module. -/
def getTableName (resourceType : String) : String :=
  resourceType ++ "_Token"

/-- shouldCompareTokenValue from the token table module. -/
def shouldCompareTokenValue (operator : FhirOperator) : Bool :=
  match operator with
  | .missing | .present | .inOp | .notIn | .identifierOp => false
  | _ => true

/-- shouldTokenRowExist from the token table module: whether the built
condition must assert presence (true) or absence (false) of a matching
row/entry; a MISSING or PRESENT literal other than true/false raises a
structured bad-request OperationOutcomeError. -/
def shouldTokenRowExist (filter : Filter) : Except OperationOutcome Bool :=
  if shouldCompareTokenValue filter.operator then
    if filter.operator = .notOp ∨ filter.operator = .notEquals then .ok false else .ok true
  else if filter.operator = .missing then
    if strToLower filter.value = "true" then .ok false
    else if strToLower filter.value = "false" then .ok true
    else .error (badRequest
      "Search filter \x27:missing\x27 must have a value of \x27true\x27 or \x27false\x27")
  else if filter.operator = .present then
    if strToLower filter.value = "true" then .ok true
    else if strToLower filter.value = "false" then .ok false
    else .error (badRequest
      "Search filter \x27:missing\x27 must have a value of \x27true\x27 or \x27false\x27")
  else .ok true

/-- Modelled from the spec: escapeLikeString from @medplum/core (not under
src/): escape the LIKE wildcard characters and the escape character. -/
def escapeLikeString (s : String) : String :=
  String.mk (s.data.foldl
    (fun acc c => if c = '\\' ∨ c = '%' ∨ c = '_' then acc ++ ['\\', c] else acc ++ [c]) [])

/-- Modelled from the spec: escapeLiteral from the pg driver (not under
src/): wrap the string in single quotes, doubling embedded quotes. -/
def escapeLiteral (s : String) : String :=
  let q : Char := Char.ofNat 39
  String.mk (q :: s.data.foldl (fun acc c => if c = q then acc ++ [q, q] else acc ++ [c]) []
    ++ [q])

/-- Modelled from the spec: splitN(query, delimiter, 2) from @medplum/core
(not under src/): split on the first pipe into at most a system part and a
value part. -/
def splitNPipe (query : String) : List String :=
  match splitOnChar query '|' with
  | [] => [query]
  | [s] => [s]
  | s :: rest => [s, joinWith "|" rest]

/-- Modelled from the spec: splitSearchOnComma from @medplum/core (not
under src/): split the filter value on commas into disjunction terms. -/
def splitSearchOnComma (s : String) : List String :=
  splitOnChar s ','

/-- The USE_TOKEN_TABLE branch of buildValueCondition: conditions on the
value column of the side token table. -/
def buildValueConditionTokenTable (tableName : String) (filter : Filter)
    (caseSensitive : Bool) (value : String) : Expression :=
  let column : Column :=
    { tableName := some tableName, columnName := "value", raw := false, aliasName := none }
  if filter.operator = .textOp then
    .conjunction
      [.typedCondition
          { tableName := some tableName, columnName := "system", raw := false,
            aliasName := none } "=" (.strParam "text") none,
       .typedCondition column "TSVECTOR_SIMPLE" (.strParam (value ++ ":*")) none]
  else if filter.operator = .containsOp then
    .typedCondition column "LIKE" (.strParam (escapeLikeString value ++ "%")) none
  else if caseSensitive then
    .typedCondition column "=" (.strParam value) none
  else
    .typedCondition column "IN" (.listParam [value, strToLower value]) none

/-- The encoded-array-column branch of buildValueCondition: conditions on
the per-parameter token array column. -/
def buildValueConditionColumn (details : SearchParameterDetails) (tableName : String)
    (filter : Filter) (caseSensitive : Bool) (system : Option String) (value : String) :
    Expression :=
  let system := system.getD ""
  let valuePart := if value.data.isEmpty then "" else DELIM ++ value
  let tokenCol : Column :=
    { tableName := some tableName, columnName := details.columnName, raw := false,
      aliasName := none }
  if filter.operator = .textOp then
    .conjunction
      [.typedCondition tokenCol "ARRAY_CONTAINS" (.strParam "text") (some "text[]"),
       .typedCondition tokenCol "ARRAY_IREGEX"
         (.strParam ("text" ++ DELIM ++ "[^" ++ ARRAY_DELIM ++ "]*" ++ value))
         (some "text[]")]
  else if filter.operator = .containsOp then
    .conjunction
      [.typedCondition tokenCol "ARRAY_ILIKE"
         (.strParam ("%" ++ ARRAY_DELIM ++ DELIM ++ "%" ++ escapeLikeString value ++ "%"))
         (some "text[]"),
       .typedCondition tokenCol "ARRAY_IREGEX"
         (.strParam (ARRAY_DELIM ++ DELIM ++ "[^" ++ ARRAY_DELIM ++ "]*" ++ value))
         (some "text[]")]
  else if caseSensitive then
    .typedCondition tokenCol "ARRAY_CONTAINS" (.strParam (system ++ valuePart)) (some "text[]")
  else
    .typedCondition tokenCol "ARRAY_IREGEX"
      (.strParam (system ++ DELIM ++ value ++ ARRAY_DELIM)) (some "text[]")

/-- buildValueCondition from the token table module: trim the value, then
dispatch on USE_TOKEN_TABLE. -/
def buildValueCondition (details : SearchParameterDetails) (tableName : String)
    (filter : Filter) (caseSensitive : Bool) (system : Option String) (value : String) :
    Expression :=
  let value := strTrim value
  if USE_TOKEN_TABLE then buildValueConditionTokenTable tableName filter caseSensitive value
  else buildValueConditionColumn details tableName filter caseSensitive system value

/-- buildInValueSetCondition from the token table module. -/
def buildInValueSetCondition (tableName : String) (value : String) : Expression :=
  if USE_TOKEN_TABLE then
    .typedCondition
      { tableName := some tableName, columnName := "system", raw := false, aliasName := none }
      "IN_SUBQUERY"
      (.queryParam ((((SelectQuery.new "ValueSet" none).columnStr "reference").whereStr
        "url" "=" value).limit 1))
      (some "TEXT[]")
  else
    let inner := (((SelectQuery.new "ValueSet" none).columnStr "reference").whereStr
      "url" "=" value).limit 1
    let unnest := (SelectQuery.new "unnested" (some inner)).columnC
      { tableName := some "ValueSet", columnName := "unnest(reference)", raw := true,
        aliasName := some "reference" }
    let code := "code"
    let arrayAgg := (SelectQuery.new "array_agg" (some unnest)).columnC
      { tableName := some "unnested",
        columnName := "array_agg(" ++ escapeLiteral (code ++ DELIM) ++ " || reference)",
        raw := true, aliasName := some "code_and_system" }
    .typedCondition
      { tableName := some tableName, columnName := "token", raw := false, aliasName := none }
      "ARRAY_CONTAINS_SUBQUERY" (.queryParam arrayAgg) (some "TEXT[]")

/-- buildWhereCondition from the token table module: one WHERE condition
for one comma-separated query value, if the operator requires one. -/
def buildWhereCondition (details : SearchParameterDetails) (tableName : String)
    (filter : Filter) (caseSensitive : Bool) (query : String) : Option Expression :=
  match splitNPipe query with
  | [system, value] =>
    if USE_TOKEN_TABLE then
      let systemCondition : Expression := .typedCondition
        { tableName := some tableName, columnName := "system", raw := false, aliasName := none }
        "=" (if system.data.isEmpty then .nullParam else .strParam system) none
      if value.data.isEmpty then some systemCondition
      else some (.conjunction [systemCondition,
        buildValueCondition details tableName filter caseSensitive (some system) value])
    else
      some (buildValueCondition details tableName filter caseSensitive
        (some (if system.data.isEmpty then NULL_SYSTEM else system)) value)
  | _ =>
    if filter.operator = .inOp then some (buildInValueSetCondition tableName query)
    else if shouldCompareTokenValue filter.operator then
      some (buildValueCondition details tableName filter caseSensitive none query)
    else none

/-- buildWhereExpression from the token table module: the disjunction of
the per-value conditions, or none when the operator needs no value
condition (e.g. MISSING). -/
def buildWhereExpression (details : SearchParameterDetails) (tableName : String)
    (caseSensitive : Bool) (filter : Filter) : Option Expression :=
  let subExpressions := (splitSearchOnComma filter.value).filterMap
    (fun option => buildWhereCondition details tableName filter caseSensitive option)
  if subExpressions.isEmpty then none else some (.disjunction subExpressions)

/-- The USE_TOKEN_TABLE branch of TokenTable.buildWhere: an EXISTS
subquery over the side token table, negated when the row must not exist. -/
def buildWhereTokenTable (details : SearchParameterDetails) (resourceType table : String)
    (caseSensitive : Bool) (filter : Filter) : Except OperationOutcome Expression := do
  let lookupTableName := getTableName resourceType
  let conjunctionExprs : List Expression :=
    [.typedCondition
        { tableName := some table, columnName := "id", raw := false, aliasName := none } "="
        (.colParam { tableName := some lookupTableName, columnName := "resourceId",
                     raw := false, aliasName := none }) none,
     .typedCondition
        { tableName := some lookupTableName, columnName := "code", raw := false,
          aliasName := none } "=" (.strParam filter.code) none]
  let conjunctionExprs :=
    match buildWhereExpression details lookupTableName caseSensitive filter with
    | some e => conjunctionExprs ++ [e]
    | none => conjunctionExprs
  let existsExpr : Expression := .sqlFunction "EXISTS"
    [((SelectQuery.new lookupTableName none).columnStr "resourceId").whereExprAppend
      (.conjunction conjunctionExprs)]
  let rowExist ← shouldTokenRowExist filter
  pure (if rowExist then existsExpr else .negation existsExpr)

/-- The encoded-array-column branch of TokenTable.buildWhere: the
per-value disjunction (or the ARRAY_EMPTY fallback), negated when the
entry must not exist. -/
def buildWhereColumn (details : SearchParameterDetails) (table : String)
    (caseSensitive : Bool) (filter : Filter) : Except OperationOutcome Expression := do
  let whereExpression := (buildWhereExpression details table caseSensitive filter).getD
    (.typedCondition
      { tableName := some table, columnName := details.columnName, raw := false,
        aliasName := none } "ARRAY_EMPTY" .undefinedParam none)
  let rowExist ← shouldTokenRowExist filter
  pure (if rowExist then whereExpression else .negation whereExpression)

/-- TokenTable.buildWhere from the token table module. The source reads
caseSensitive and details through isCaseSensitiveSearchParameter and
getSearchParameterDetails; the resolved element definition list and
details are threaded explicitly. -/
def TokenTable.buildWhere (details : SearchParameterDetails)
    (elementDefinitions : List InternalSchemaElement) (resourceType table : String)
    (param : SearchParameter) (filter : Filter) : Except OperationOutcome Expression :=
  let caseSensitive := isCaseSensitiveSearchParameter param elementDefinitions
  if USE_TOKEN_TABLE then buildWhereTokenTable details resourceType table caseSensitive filter
  else buildWhereColumn details table caseSensitive filter

/-- TokenTable.isIndexed from the token table module. -/
def TokenTable.isIndexed (searchParam : SearchParameter)
    (elementDefinitions : List InternalSchemaElement) : Bool :=
  USE_TOKEN_TABLE && (getTokenIndexType searchParam elementDefinitions).isSome

/-- The USE_TOKEN_TABLE branch of TokenTable.addOrderBy: join the side
token table (DISTINCT ON resourceId) and order by its value column. -/
def addOrderByTokenTable (selectQuery : SelectQuery) (resourceType : String)
    (sortRule : SortRule) : SelectQuery :=
  let lookupTableName := getTableName resourceType
  let joinName := selectQuery.getNextJoinAlias
  let joinOnExpression : Expression := .typedCondition
    { tableName := some resourceType, columnName := "id", raw := false, aliasName := none } "="
    (.colParam { tableName := some joinName, columnName := "resourceId", raw := false,
                 aliasName := none }) none
  let joined := selectQuery.joinAppend "INNER JOIN"
    (((((SelectQuery.new lookupTableName none).distinctOnAppend "resourceId").columnStr
        "resourceId").columnStr "value").whereExprAppend
      (.typedCondition
        { tableName := some lookupTableName, columnName := "code", raw := false,
          aliasName := none } "=" (.strParam sortRule.code) none))
    joinName joinOnExpression
  joined.orderByAppend
    { tableName := some joinName, columnName := "value", raw := false, aliasName := none }
    sortRule.descending

/-- The encoded-array-column branch of TokenTable.addOrderBy: order by the
first encoded value for the sort code, extracted by a raw substring
expression over the combined token column. -/
def addOrderByColumn (selectQuery : SelectQuery) (sortRule : SortRule) : SelectQuery :=
  selectQuery.orderByAppend
    { tableName := none,
      columnName := "substring(a2t(token)," ++
        escapeLiteral (sortRule.code ++ DELIM ++ DELIM ++ "([^" ++ ARRAY_DELIM ++ "]+)") ++ ")",
      raw := true, aliasName := none }
    sortRule.descending

/-- TokenTable.addOrderBy from the token table module. -/
def TokenTable.addOrderBy (selectQuery : SelectQuery) (resourceType : String)
    (sortRule : SortRule) : SelectQuery :=
  if USE_TOKEN_TABLE then addOrderByTokenTable selectQuery resourceType sortRule
  else addOrderByColumn selectQuery sortRule

/- ===================================================================
   Statement-side notions used by the claims.
   =================================================================== -/

mutual

/-- Whether an expression tree contains no Negation node (subqueries are
leaves: a negation can only be introduced by the condition builder at the
top of the tree). -/
def negationFree : Expression → Bool
  | .typedCondition _ _ _ _ => true
  | .conjunction es => negationFreeList es
  | .disjunction es => negationFreeList es
  | .negation _ => false
  | .sqlFunction _ _ => true

/-- negationFree over a list of expressions. -/
def negationFreeList : List Expression → Bool
  | [] => true
  | e :: es => negationFree e && negationFreeList es

end

mutual

/-- Modelled from the spec: the SQL renderer and executor (the SQL module
and the database, not under src/), evaluated against the encoded
token-array column of one resource row (spec 4.3 and 4.4): ARRAY_EMPTY
holds when the encoded array has no entries, ARRAY_CONTAINS holds when
the given encoded string is one of the entries, and negation, conjunction
and disjunction are the boolean connectives. Operators outside this
fragment are not modelled and evaluate to none. -/
def evalTokenExpr (entries : List String) : Expression → Option Bool
  | .typedCondition _ "ARRAY_EMPTY" _ _ => some entries.isEmpty
  | .typedCondition _ "ARRAY_CONTAINS" (.strParam s) _ => some (entries.contains s)
  | .negation e => (evalTokenExpr entries e).map fun b => !b
  | .conjunction es => evalTokenExprAll entries es
  | .disjunction es => evalTokenExprAny entries es
  | _ => none

/-- Conjunction of evaluated expressions. -/
def evalTokenExprAll (entries : List String) : List Expression → Option Bool
  | [] => some true
  | e :: es =>
    match evalTokenExpr entries e, evalTokenExprAll entries es with
    | some a, some b => some (a && b)
    | _, _ => none

/-- Disjunction of evaluated expressions. -/
def evalTokenExprAny (entries : List String) : List Expression → Option Bool
  | [] => some false
  | e :: es =>
    match evalTokenExpr entries e, evalTokenExprAny entries es with
    | some a, some b => some (a || b)
    | _, _ => none

end

/-- Modelled from the spec: the storage-strategy side-lookup-table
condition of claim C3, stated in the words of the spec: the parameter id
is in one of the three fixed membership lists, or its code is prefixed
"address-". -/
def lookupTableCondition (searchParam : SearchParameter) : Prop :=
  searchParam.id ∈ nameParams ∨ searchParam.id ∈ telecomParams ∨
    searchParam.id ∈ addressParams ∨ strStartsWith searchParam.code "address-" = true

/-- Modelled from the spec: the token-columns condition of claim C3,
stated in the words of the spec: declared type token, and the code ends in
":identifier" or some resolved element definition has a type among
Identifier, CodeableConcept, Coding, ContactPoint. -/
def tokenColumnsCondition (searchParam : SearchParameter)
    (builder : SearchParameterDetailsBuilder) : Prop :=
  searchParam.type = "token" ∧
    (strEndsWith searchParam.code ":identifier" = true ∨
      ∃ ed ∈ builder.elementDefinitions, ∃ t ∈ ed.type,
        t.code = "Identifier" ∨ t.code = "CodeableConcept" ∨ t.code = "Coding" ∨
          t.code = "ContactPoint")

/-- Modelled from the spec: the semanticType derivation of claim C6,
stated in the words of the spec: date maps to DATE only if the single
narrowed type is exactly date, else DATETIME; reference maps to CANONICAL
if a canonical type was observed, else REFERENCE; token maps to BOOLEAN
only if the single narrowed type is boolean, else TEXT; number maps to
NUMBER; quantity maps to QUANTITY; every other declared type maps to TEXT. -/
def claimSemanticType (searchParam : SearchParameter) (propertyTypes : List String) :
    SearchParameterType :=
  if searchParam.type = "date" then
    if propertyTypes = ["date"] then .DATE else .DATETIME
  else if searchParam.type = "reference" then
    if "canonical" ∈ propertyTypes then .CANONICAL else .REFERENCE
  else if searchParam.type = "token" then
    if propertyTypes = ["boolean"] then .BOOLEAN else .TEXT
  else if searchParam.type = "number" then .NUMBER
  else if searchParam.type = "quantity" then .QUANTITY
  else .TEXT

/- ===================================================================
   Concrete instances used by witnesses and counterexamples.
   =================================================================== -/

/-- The Observation-code token search parameter. -/
def spCode : SearchParameter :=
  { id := "Observation-code", code := "code", type := "token",
    expression := "Observation.code" }

/-- The resolved element definitions of Observation.code: a multi-valued
CodeableConcept element. -/
def edsCode : List InternalSchemaElement :=
  [{ isArray := true, type := [{ code := "CodeableConcept" }] }]

/-- The compiled plan for Observation-code. -/
def detailsCode : SearchParameterDetails :=
  { columnName := "code", type := .TEXT, elementDefinitions := edsCode, array := true,
    implementation := .tokenColumns }

/-- The filter code:missing=true. -/
def missingTrueFilter : Filter :=
  { code := "code", operator := .missing, value := "true" }

/-- The filter code:missing=maybe (an invalid literal). -/
def missingBadFilter : Filter :=
  { code := "code", operator := .missing, value := "maybe" }

/-- The condition built for code:missing=true on the encoded-array-column
path: the negation of the ARRAY_EMPTY test on the per-parameter column. -/
def missingTrueCondition : Expression :=
  .negation (.typedCondition
    { tableName := some "Observation", columnName := "code", raw := false, aliasName := none }
    "ARRAY_EMPTY" .undefinedParam none)

/-- One encoded entry (system field, value field). -/
def sampleEncodedEntry : String :=
  "http://loinc.org" ++ DELIM ++ "386661006"

/-- The CodeableConcept of the C2 scenario. -/
def feverConcept : CodeableConcept :=
  { text := some "Fever",
    coding := some [{ system := some "http://loinc.org", code := some "386661006",
                      display := some "Fever" }] }

/-- A token parameter whose resolved element is a choice type declaring
both ContactPoint and Identifier. -/
def spMixed : SearchParameter :=
  { id := "Patient-mixed", code := "mixed", type := "token",
    expression := "Patient.mixed" }

/-- The resolved element definitions of spMixed. -/
def edsMixed : List InternalSchemaElement :=
  [{ isArray := false, type := [{ code := "ContactPoint" }, { code := "Identifier" }] }]

/-- An identifier-suffixed token parameter. -/
def spIdentifierSuffixed : SearchParameter :=
  { id := "Patient-x", code := "x:identifier", type := "token",
    expression := "Patient.x" }

/-- A token parameter whose resolved element is a choice type declaring
ContactPoint and CodeableConcept (case-insensitive per getTokenIndexType). -/
def spContact : SearchParameter :=
  { id := "Patient-multi", code := "multi", type := "token",
    expression := "Patient.multi" }

/-- The resolved element definitions of spContact. -/
def edsContact : List InternalSchemaElement :=
  [{ isArray := true, type := [{ code := "ContactPoint" }, { code := "CodeableConcept" }] }]

/-- A concept whose text and coding display agree up to letter case. -/
def ccDup : CodeableConcept :=
  { text := some "fever",
    coding := some [{ system := none, code := none, display := some "FeVer" }] }

/-- A typed-value evaluator for the C5 failing input: Patient.multi holds
the single CodeableConcept ccDup. -/
def evalDup : String → List TypedValue := fun expr =>
  if expr = "Patient.multi" then [.codeableConceptValue (some ccDup)] else []

/-- The duplicated token produced on the C5 failing input. -/
def dupToken : LookupToken :=
  { code := "multi", system := some "text", value := some "fever" }

/-- A schema for the C8 witness: Patient.extension is a multi-valued
Extension element and Extension.valueDateTime a scalar dateTime element. -/
def schemaW : Schema := fun baseType propertyName =>
  if baseType = "Patient" ∧ propertyName = "extension" then
    some { isArray := true, type := [{ code := "Extension" }] }
  else if baseType = "Extension" ∧ propertyName = "valueDateTime" then
    some { isArray := false, type := [{ code := "dateTime" }] }
  else none

/-- The parsed atom tree of Patient.extension.value.code. -/
def atomExtValueCode : Atom :=
  .dot (.dot (.dot (.sym "Patient") (.sym "extension")) (.sym "value")) (.sym "code")

/-- The parsed atom tree of Patient.extension.valueDateTime. -/
def atomExtValueDateTime : Atom :=
  .dot (.dot (.sym "Patient") (.sym "extension")) (.sym "valueDateTime")

/-- A search parameter over the extension dateTime path. -/
def spAssertedDate : SearchParameter :=
  { id := "us-core-condition-asserted-date", code := "asserted-date", type := "date",
    expression := "Patient.extension.valueDateTime" }

/-- An empty schema (every lookup fails). -/
def schemaEmpty : Schema := fun _ _ => none

/-- The plan compiled for spAssertedDate over schemaW: a scalar DATETIME
inline column (the valueDateTime special case resets array to false). -/
def assertedDatePlan : SearchParameterDetails :=
  { columnName := "assertedDate", type := .DATETIME,
    elementDefinitions := [{ isArray := false, type := [{ code := "dateTime" }] }],
    array := false, implementation := .column }

/-- The plan compiled for spCode from an empty expression list: an inline
column of semantic type TEXT. -/
def detailsColumnPlan : SearchParameterDetails :=
  { columnName := "code", type := .TEXT, elementDefinitions := [], array := false,
    implementation := .column }

/-- The cache after the first compilation of spCode for Observation. -/
def cacheAfterFirst : DetailsCache :=
  [(("Observation", "code"), detailsColumnPlan)]

/-- Modelled from the spec: the candidate (system, value) pairs of one
Coding per claim C2: one (text, display) candidate when display is
present, plus one (system, code) candidate. -/
def codingCandidates (c : Coding) : List (Option String × Option String) :=
  (if strTruthy c.display then [(some "text", c.display)] else []) ++ [(c.system, c.code)]

/-- Modelled from the spec: the candidate (system, value) pairs of one
CodeableConcept per claim C2: one (text, concept.text) candidate when the
text field is present, plus the candidates of each contained Coding in
order. -/
def conceptCandidates (cc : CodeableConcept) : List (Option String × Option String) :=
  (if strTruthy cc.text then [(some "text", cc.text)] else []) ++
    (cc.coding.getD []).flatMap codingCandidates

/- ===================================================================
   Theorems.
   =================================================================== -/

theorem list_eq_singleton_iff (l : List String) (a : String) :
    (l.length = 1 ∧ a ∈ l) ↔ l = [a] := by
  constructor
  · rintro ⟨hlen, hmem⟩
    cases l with
    | nil => simp at hlen
    | cons x xs =>
      cases xs with
      | nil => simp_all
      | cons y ys => simp at hlen
  · rintro rfl
    simp

theorem strTruthy_some_of_ne (t : String) (h : t ≠ "") : strTruthy (some t) = true := by
  unfold strTruthy
  cases t with
  | mk data =>
    cases data with
    | nil => exact absurd rfl h
    | cons c cs => rfl

theorem exceptMap_eq_ok {ε α β : Type} {f : α → β} {x : Except ε α} {b : β}
    (h : Except.map f x = .ok b) : ∃ a, x = .ok a ∧ b = f a := by
  cases x with
  | error e => simp [Except.map] at h
  | ok a =>
    simp [Except.map] at h
    exact ⟨a, rfl, h.symm⟩

/-- C1. For a token filter with operator MISSING or PRESENT, the spec says
a literal of true for MISSING yields a condition requiring that no encoded
entry for the code exists, and any other literal is a structured client
error. On the encoded-array-column path the code instead builds the
negation of the ARRAY_EMPTY test: on a resource with no encoded entries
the built condition evaluates to false, and on a resource that has an
entry it evaluates to true — the polarity is inverted (the invalid-literal
error handling itself is correct). -/
theorem c1_missing_present_inverted :
    TokenTable.buildWhere detailsCode edsCode "Observation" "Observation" spCode
        missingTrueFilter = .ok missingTrueCondition ∧
    evalTokenExpr [] missingTrueCondition = some false ∧
    evalTokenExpr [sampleEncodedEntry] missingTrueCondition = some true ∧
    TokenTable.buildWhere detailsCode edsCode "Observation" "Observation" spCode
        missingBadFilter =
      .error (badRequest
        "Search filter \x27:missing\x27 must have a value of \x27true\x27 or \x27false\x27") :=
  ⟨rfl, rfl, rfl, rfl⟩

/-- C5. The extractor is claimed to emit no two tokens with an identical
(code, system, value) triple; but buildSimpleToken deduplicates against
the raw candidate value while storing the lower-cased value, so a
case-insensitive parameter (ContactPoint-typed choice element) whose
CodeableConcept carries text "fever" and coding display "FeVer" produces
the same triple twice. -/
theorem c5_duplicate_triples :
    getTokens [(spContact, edsContact)] evalDup = [dupToken, dupToken] ∧
    ¬ (getTokens [(spContact, edsContact)] evalDup).Nodup := by
  refine ⟨rfl, ?_⟩
  rw [(rfl : getTokens [(spContact, edsContact)] evalDup = [dupToken, dupToken])]
  decide

/-- C6. The compiled semanticType equals, for every parameter definition
and narrowed property-type set, the derivation stated by the spec: date
maps to DATE only if the single narrowed type is exactly date, else
DATETIME; reference maps to CANONICAL if canonical was observed, else
REFERENCE; token maps to BOOLEAN only if the single narrowed type is
boolean, else TEXT; number maps to NUMBER; quantity maps to QUANTITY;
everything else maps to TEXT. -/
theorem c6_semantic_type (searchParam : SearchParameter) (propertyTypes : List String) :
    getSearchParameterType searchParam propertyTypes =
      claimSemanticType searchParam propertyTypes := by
  unfold getSearchParameterType claimSemanticType
  by_cases h1 : searchParam.type = "date"
  · simp only [if_pos h1]
    exact if_congr (list_eq_singleton_iff propertyTypes "date") rfl rfl
  · by_cases h2 : searchParam.type = "number"
    · rw [h2]; rfl
    · by_cases h3 : searchParam.type = "quantity"
      · rw [h3]; rfl
      · by_cases h4 : searchParam.type = "reference"
        · rw [h4]; rfl
        · by_cases h5 : searchParam.type = "token"
          · simp only [if_neg h1, if_neg h2, if_neg h3, if_neg h4, if_pos h5]
            exact if_congr (list_eq_singleton_iff propertyTypes "boolean") rfl rfl
          · simp only [if_neg h1, if_neg h2, if_neg h3, if_neg h4, if_neg h5]

/-- C10. USE_TOKEN_TABLE is false, so TokenTable.isIndexed is false for
every search parameter and resolved element definition list, and
buildWhere, addOrderBy and buildValueCondition each reduce to their
encoded-array-column branch. -/
theorem c10_token_table_disabled :
    (∀ (searchParam : SearchParameter) (elementDefinitions : List InternalSchemaElement),
      TokenTable.isIndexed searchParam elementDefinitions = false) ∧
    (∀ (details : SearchParameterDetails) (elementDefinitions : List InternalSchemaElement)
        (resourceType table : String) (param : SearchParameter) (filter : Filter),
      TokenTable.buildWhere details elementDefinitions resourceType table param filter =
        buildWhereColumn details table
          (isCaseSensitiveSearchParameter param elementDefinitions) filter) ∧
    (∀ (selectQuery : SelectQuery) (resourceType : String) (sortRule : SortRule),
      TokenTable.addOrderBy selectQuery resourceType sortRule =
        addOrderByColumn selectQuery sortRule) ∧
    (∀ (details : SearchParameterDetails) (tableName : String) (filter : Filter)
        (caseSensitive : Bool) (system : Option String) (value : String),
      buildValueCondition details tableName filter caseSensitive system value =
        buildValueConditionColumn details tableName filter caseSensitive system
          (strTrim value)) :=
  ⟨fun _ _ => rfl, fun _ _ _ _ _ _ => rfl, fun _ _ _ => rfl, fun _ _ _ _ _ _ => rfl⟩

theorem isLookupTableParam_iff (searchParam : SearchParameter)
    (builder : SearchParameterDetailsBuilder) :
    isLookupTableParam searchParam builder = true ↔ lookupTableCondition searchParam := by
  unfold isLookupTableParam lookupTableCondition
  split_ifs with h1 h2 h3 h4 <;> simp_all

theorem isTokenParam_iff (searchParam : SearchParameter)
    (builder : SearchParameterDetailsBuilder) :
    isTokenParam searchParam builder = true ↔ tokenColumnsCondition searchParam builder := by
  unfold isTokenParam tokenColumnsCondition hasTokenColumnsElementType
  split_ifs with h1 h2 <;>
    simp_all [List.any_eq_true, or_assoc]

/-- C3. The storage-strategy classification is side-lookup-table exactly
when the parameter id is in the fixed name, telecom or address lists or
the code starts with "address-"; otherwise token-columns exactly when the
declared type is token and the code ends in ":identifier" or some resolved
element type is among Identifier, CodeableConcept, Coding, ContactPoint;
otherwise inline-column, so in particular a non-lookup parameter of
declared type number classifies as inline-column. -/
theorem c3_storage_classification (searchParam : SearchParameter)
    (builder : SearchParameterDetailsBuilder) :
    (classifyImplementation searchParam builder = .lookupTable ↔
      lookupTableCondition searchParam) ∧
    (classifyImplementation searchParam builder = .tokenColumns ↔
      (¬ lookupTableCondition searchParam ∧ tokenColumnsCondition searchParam builder)) ∧
    (searchParam.type = "number" → ¬ lookupTableCondition searchParam →
      classifyImplementation searchParam builder = .column) := by
  have hlk := isLookupTableParam_iff searchParam builder
  have htk := isTokenParam_iff searchParam builder
  refine ⟨?_, ?_, ?_⟩
  · unfold classifyImplementation
    split_ifs with h1 h2 <;> simp_all
  · unfold classifyImplementation
    split_ifs with h1 h2 <;> simp_all
  · intro hnum hnl
    have ht : isTokenParam searchParam builder = false := by
      unfold isTokenParam
      rw [if_neg]
      intro habs
      rw [hnum] at habs
      exact absurd habs (by decide)
    unfold classifyImplementation
    rw [if_neg (fun habs => hnl (hlk.mp habs)), if_neg (by simp [ht])]

theorem c3_storage_classification_witness :
    classifyImplementation
      { id := "Observation-num", code := "num", type := "number",
        expression := "Observation.num" }
      { elementDefinitions := [], propertyTypes := [], array := false } = .column :=
  (c3_storage_classification _ _).2.2 rfl (by
    unfold lookupTableCondition nameParams telecomParams addressParams
    decide)

/-- C4 counterexample. The claim says tokens are case-sensitive iff the
parameter is an ":identifier" parameter or a resolved element type is
among Identifier, CodeableConcept, Coding. For a token parameter whose
choice element declares both ContactPoint and Identifier,
getTokenIndexType returns CASE_INSENSITIVE (the ContactPoint loop runs
first), so the parameter is not case-sensitive although the claimed
right-hand side holds. -/
theorem c4_counterexample :
    ¬ (isCaseSensitiveSearchParameter spMixed edsMixed = true ↔
        (strEndsWith spMixed.code ":identifier" = true ∨
          hasCaseSensitiveElementType edsMixed = true)) := by
  decide

/-- C4 as amended. For a token-typed parameter, extracted tokens are
case-sensitive iff it is an ":identifier" parameter, or a resolved element
type is among Identifier, CodeableConcept, Coding and no resolved element
type is ContactPoint (ContactPoint forces case-insensitive even when those
types co-occur); and every token retained by buildSimpleToken under a
case-insensitive parameter either was already present or carries the
lower-cased value. -/
theorem c4_case_sensitivity (searchParam : SearchParameter)
    (elementDefinitions : List InternalSchemaElement)
    (h : searchParam.type = "token") :
    (isCaseSensitiveSearchParameter searchParam elementDefinitions = true ↔
      (strEndsWith searchParam.code ":identifier" = true ∨
        (hasCaseSensitiveElementType elementDefinitions = true ∧
          hasContactPointElementType elementDefinitions = false))) ∧
    (∀ (result : List LookupToken) (system value : Option String) (token : LookupToken),
      token ∈ buildSimpleToken result searchParam false system value →
      token ∈ result ∨ token.value = value.map strToLower) := by
  constructor
  · unfold isCaseSensitiveSearchParameter getTokenIndexType
    rw [if_neg (by simp [h])]
    split_ifs with h2 h3 h4 h5 <;>
      simp_all [List.isEmpty_iff, hasCaseSensitiveElementType, List.any_eq_true]
    assumption
  · intro result system value token hmem
    unfold buildSimpleToken at hmem
    split at hmem
    · rcases List.mem_append.mp hmem with hin | hnew
      · exact Or.inl hin
      · right
        rw [List.mem_singleton.mp hnew]
        cases value with
        | none => simp [strTruthy]
        | some v =>
          cases v with
          | mk data =>
            cases data with
            | nil => simp [strTruthy, strToLower]
            | cons c cs => simp [strTruthy, strToLower]
    · exact Or.inl hmem

theorem c4_case_sensitivity_witness :
    isCaseSensitiveSearchParameter spIdentifierSuffixed [] = true :=
  (c4_case_sensitivity spIdentifierSuffixed [] rfl).1.mpr (Or.inl (by decide))

theorem buildSimpleToken_prefix (result : List LookupToken) (searchParam : SearchParameter)
    (caseSensitive : Bool) (system value : Option String) :
    ∃ rest, buildSimpleToken result searchParam caseSensitive system value = result ++ rest := by
  unfold buildSimpleToken
  split
  · exact ⟨_, rfl⟩
  · exact ⟨[], by simp⟩

theorem buildCodingToken_prefix (result : List LookupToken) (searchParam : SearchParameter)
    (caseSensitive : Bool) (coding : Option Coding) :
    ∃ rest, buildCodingToken result searchParam caseSensitive coding = result ++ rest := by
  cases coding with
  | none => exact ⟨[], by simp [buildCodingToken]⟩
  | some c =>
    obtain ⟨r1, h1⟩ : ∃ r1,
        (if strTruthy c.display then
          buildSimpleToken result searchParam caseSensitive (some "text") c.display
        else result) = result ++ r1 := by
      split
      · exact buildSimpleToken_prefix _ _ _ _ _
      · exact ⟨[], by simp⟩
    obtain ⟨r2, h2⟩ := buildSimpleToken_prefix (result ++ r1) searchParam caseSensitive
      c.system c.code
    refine ⟨r1 ++ r2, ?_⟩
    simp only [buildCodingToken]
    rw [h1, h2]
    simp

theorem foldl_buildCodingToken_prefix (searchParam : SearchParameter) (caseSensitive : Bool)
    (codings : List Coding) (acc : List LookupToken) :
    ∃ rest, codings.foldl
      (fun a c => buildCodingToken a searchParam caseSensitive (some c)) acc = acc ++ rest := by
  induction codings generalizing acc with
  | nil => exact ⟨[], by simp⟩
  | cons c rest ih =>
    obtain ⟨r1, h1⟩ := buildCodingToken_prefix acc searchParam caseSensitive (some c)
    obtain ⟨r2, h2⟩ := ih (acc ++ r1)
    rw [List.foldl_cons, h1, h2]
    exact ⟨r1 ++ r2, by simp⟩

theorem buildSimpleToken_mem_self (acc : List LookupToken) (searchParam : SearchParameter)
    (caseSensitive : Bool) (system value : Option String)
    (h : (strTruthy system || strTruthy value) = true) :
    ({ code := searchParam.code, system := system, value := value } : LookupToken) ∈
        buildSimpleToken acc searchParam caseSensitive system value ∨
      ({ code := searchParam.code, system := system,
         value := if strTruthy value && !caseSensitive then value.map strToLower
           else value } : LookupToken) ∈
        buildSimpleToken acc searchParam caseSensitive system value := by
  unfold buildSimpleToken
  by_cases hdup : acc.any (fun token =>
      token.code == searchParam.code && token.system == system && token.value == value) = true
  · rw [if_neg (by simp [hdup])]
    left
    obtain ⟨tok, htokmem, hprop⟩ := List.any_eq_true.mp hdup
    simp only [Bool.and_eq_true, beq_iff_eq] at hprop
    obtain ⟨⟨h1, h2⟩, h3⟩ := hprop
    have htok : tok = { code := searchParam.code, system := system, value := value } := by
      cases tok
      simp_all
    rw [← htok]
    exact htokmem
  · rw [if_pos (by simp [h, hdup])]
    right
    exact List.mem_append_right _ (List.mem_singleton.mpr rfl)

theorem foldl_buildSimpleToken_mono (searchParam : SearchParameter) (caseSensitive : Bool)
    (pairs : List (Option String × Option String)) (acc : List LookupToken) (t : LookupToken)
    (h : t ∈ acc) :
    t ∈ pairs.foldl
      (fun a p => buildSimpleToken a searchParam caseSensitive p.1 p.2) acc := by
  induction pairs generalizing acc with
  | nil => exact h
  | cons p rest ih =>
    rw [List.foldl_cons]
    apply ih
    obtain ⟨r, hr⟩ := buildSimpleToken_prefix acc searchParam caseSensitive p.1 p.2
    rw [hr]
    exact List.mem_append_left _ h

theorem foldl_buildSimpleToken_mem (searchParam : SearchParameter) (caseSensitive : Bool)
    (pairs : List (Option String × Option String)) (acc : List LookupToken)
    (system value : Option String) (hmem : (system, value) ∈ pairs)
    (h : (strTruthy system || strTruthy value) = true) :
    ({ code := searchParam.code, system := system, value := value } : LookupToken) ∈
        pairs.foldl (fun a p => buildSimpleToken a searchParam caseSensitive p.1 p.2) acc ∨
      ({ code := searchParam.code, system := system,
         value := if strTruthy value && !caseSensitive then value.map strToLower
           else value } : LookupToken) ∈
        pairs.foldl (fun a p => buildSimpleToken a searchParam caseSensitive p.1 p.2) acc := by
  induction pairs generalizing acc with
  | nil => simp at hmem
  | cons p rest ih =>
    rw [List.foldl_cons]
    rcases List.mem_cons.mp hmem with heq | hrest
    · cases heq
      rcases buildSimpleToken_mem_self acc searchParam caseSensitive system value h with
        h1 | h1
      · exact Or.inl (foldl_buildSimpleToken_mono searchParam caseSensitive rest _ _ h1)
      · exact Or.inr (foldl_buildSimpleToken_mono searchParam caseSensitive rest _ _ h1)
    · exact ih _ hrest

theorem buildCodingToken_some_eq_foldl (searchParam : SearchParameter) (caseSensitive : Bool)
    (c : Coding) (acc : List LookupToken) :
    buildCodingToken acc searchParam caseSensitive (some c) =
      (codingCandidates c).foldl
        (fun a p => buildSimpleToken a searchParam caseSensitive p.1 p.2) acc := by
  simp only [buildCodingToken, codingCandidates]
  split_ifs <;> rfl

theorem foldl_buildCodingToken_eq_foldl (searchParam : SearchParameter) (caseSensitive : Bool)
    (codings : List Coding) (acc : List LookupToken) :
    codings.foldl (fun a c => buildCodingToken a searchParam caseSensitive (some c)) acc =
      (codings.flatMap codingCandidates).foldl
        (fun a p => buildSimpleToken a searchParam caseSensitive p.1 p.2) acc := by
  induction codings generalizing acc with
  | nil => rfl
  | cons c rest ih =>
    rw [List.foldl_cons, List.flatMap_cons, List.foldl_append,
      ← buildCodingToken_some_eq_foldl]
    exact ih _

theorem buildCodeableConceptToken_eq_foldl (searchParam : SearchParameter)
    (caseSensitive : Bool) (cc : CodeableConcept) (result : List LookupToken) :
    buildCodeableConceptToken result searchParam caseSensitive (some cc) =
      (conceptCandidates cc).foldl
        (fun acc p => buildSimpleToken acc searchParam caseSensitive p.1 p.2) result := by
  simp only [buildCodeableConceptToken, conceptCandidates, Option.some_bind]
  rw [List.foldl_append]
  have htext : (if strTruthy cc.text then
      buildSimpleToken result searchParam caseSensitive (some "text") cc.text else result) =
      (if strTruthy cc.text then [((some "text" : Option String), cc.text)] else []).foldl
        (fun acc p => buildSimpleToken acc searchParam caseSensitive p.1 p.2) result := by
    split_ifs <;> rfl
  rw [← htext]
  cases hcod : cc.coding with
  | none => rfl
  | some codings => exact foldl_buildCodingToken_eq_foldl searchParam caseSensitive codings _

theorem mem_codingCandidates_system_code (c : Coding) :
    (c.system, c.code) ∈ codingCandidates c := by
  unfold codingCandidates
  exact List.mem_append_right _ (List.mem_singleton.mpr rfl)

theorem mem_codingCandidates_display (c : Coding) (hd : strTruthy c.display = true) :
    ((some "text" : Option String), c.display) ∈ codingCandidates c := by
  unfold codingCandidates
  rw [if_pos hd]
  exact List.mem_append_left _ (List.mem_singleton.mpr rfl)

theorem mem_conceptCandidates_of_coding (cc : CodeableConcept) (c : Coding)
    (hc : c ∈ cc.coding.getD []) (p : Option String × Option String)
    (hp : p ∈ codingCandidates c) : p ∈ conceptCandidates cc := by
  unfold conceptCandidates
  exact List.mem_append_right _ (List.mem_flatMap.mpr ⟨c, hc, hp⟩)

/-- C2. Extracting tokens from a CodeableConcept is exactly the fold of
buildSimpleToken over the candidate list the claim describes: one
(text, concept.text) candidate when the text field is present, plus, for
each contained Coding in order, one (text, display) candidate when
display is present and one (system, code) candidate. Consequently, for
every contained Coding the (system, code) token and, when display is
present, the (text, display) token occur in the output (retained as-is,
or lower-cased when case-insensitive, or present as the identical triple
that blocked the duplicate). The text token comes first whenever text is
present, and on the scenario concept with text "Fever" and the single
LOINC coding whose display repeats "Fever" the output is exactly the two
distinct tokens, the duplicate display token having been deduped. -/
theorem c2_codeable_concept_tokens :
    (∀ (searchParam : SearchParameter) (caseSensitive : Bool) (cc : CodeableConcept)
        (result : List LookupToken),
      buildCodeableConceptToken result searchParam caseSensitive (some cc) =
        (conceptCandidates cc).foldl
          (fun acc p => buildSimpleToken acc searchParam caseSensitive p.1 p.2) result) ∧
    (∀ (searchParam : SearchParameter) (caseSensitive : Bool) (cc : CodeableConcept)
        (result : List LookupToken) (c : Coding), c ∈ cc.coding.getD [] →
      ((strTruthy c.system || strTruthy c.code) = true →
        ({ code := searchParam.code, system := c.system, value := c.code } : LookupToken) ∈
            buildCodeableConceptToken result searchParam caseSensitive (some cc) ∨
          ({ code := searchParam.code, system := c.system,
             value := if strTruthy c.code && !caseSensitive then c.code.map strToLower
               else c.code } : LookupToken) ∈
            buildCodeableConceptToken result searchParam caseSensitive (some cc)) ∧
      (strTruthy c.display = true →
        ({ code := searchParam.code, system := some "text", value := c.display } :
              LookupToken) ∈
            buildCodeableConceptToken result searchParam caseSensitive (some cc) ∨
          ({ code := searchParam.code, system := some "text",
             value := if strTruthy c.display && !caseSensitive then c.display.map strToLower
               else c.display } : LookupToken) ∈
            buildCodeableConceptToken result searchParam caseSensitive (some cc))) ∧
    (∀ (searchParam : SearchParameter) (caseSensitive : Bool) (cc : CodeableConcept)
        (t : String), cc.text = some t → t ≠ "" →
      ∃ rest, buildCodeableConceptToken [] searchParam caseSensitive (some cc) =
        { code := searchParam.code, system := some "text",
          value := some (if caseSensitive then t else strToLower t) } :: rest) ∧
    buildCodeableConceptToken [] spCode true (some feverConcept) =
      [{ code := spCode.code, system := some "text", value := some "Fever" },
       { code := spCode.code, system := some "http://loinc.org",
         value := some "386661006" }] := by
  refine ⟨buildCodeableConceptToken_eq_foldl, ?_, ?_, rfl⟩
  · intro searchParam caseSensitive cc result c hc
    constructor
    · intro hsv
      rw [buildCodeableConceptToken_eq_foldl]
      exact foldl_buildSimpleToken_mem searchParam caseSensitive _ result c.system c.code
        (mem_conceptCandidates_of_coding cc c hc _ (mem_codingCandidates_system_code c)) hsv
    · intro hd
      rw [buildCodeableConceptToken_eq_foldl]
      exact foldl_buildSimpleToken_mem searchParam caseSensitive _ result (some "text")
        c.display
        (mem_conceptCandidates_of_coding cc c hc _ (mem_codingCandidates_display c hd))
        (by rw [Bool.or_eq_true]; exact Or.inl rfl)
  · intro searchParam caseSensitive cc t htext hne
    unfold buildCodeableConceptToken
    have hbind : (some cc).bind CodeableConcept.text = some t := by simp [Option.bind, htext]
    rw [hbind, if_pos (strTruthy_some_of_ne t hne)]
    have hfirst : buildSimpleToken [] searchParam caseSensitive (some "text") (some t) =
        [{ code := searchParam.code, system := some "text",
           value := some (if caseSensitive then t else strToLower t) }] := by
      unfold buildSimpleToken
      have htext2 : strTruthy (some "text") = true := rfl
      rw [if_pos (by simp [htext2])]
      have hval : (if strTruthy (some t) && !caseSensitive then (some t).map strToLower
          else some t) = some (if caseSensitive then t else strToLower t) := by
        cases caseSensitive with
        | true => simp
        | false => simp [strTruthy_some_of_ne t hne]
      rw [List.nil_append, hval]
    rw [hfirst]
    cases hcod : (some cc).bind CodeableConcept.coding with
    | none => exact ⟨[], rfl⟩
    | some codings =>
      obtain ⟨rest, hr⟩ := foldl_buildCodingToken_prefix searchParam caseSensitive codings _
      exact ⟨rest, hr⟩

theorem c2_codeable_concept_tokens_witness :
    (∃ rest, buildCodeableConceptToken [] spCode true (some feverConcept) =
      { code := spCode.code, system := some "text",
        value := some (if true = true then "Fever" else strToLower "Fever") } :: rest) ∧
    (({ code := spCode.code, system := some "http://loinc.org",
        value := some "386661006" } : LookupToken) ∈
        buildCodeableConceptToken [] spCode true (some feverConcept) ∨
      ({ code := spCode.code, system := some "http://loinc.org",
         value := if strTruthy (some "386661006") && !true then
             (some "386661006").map strToLower else some "386661006" } : LookupToken) ∈
        buildCodeableConceptToken [] spCode true (some feverConcept)) := by
  constructor
  · exact c2_codeable_concept_tokens.2.2.1 spCode true feverConcept "Fever" rfl (by decide)
  · exact (c2_codeable_concept_tokens.2.1 spCode true feverConcept []
      { system := some "http://loinc.org", code := some "386661006",
        display := some "Fever" } (by decide)).1 (by decide)

theorem negationFreeList_iff (l : List Expression) :
    negationFreeList l = true ↔ ∀ e ∈ l, negationFree e = true := by
  induction l with
  | nil => simp [negationFreeList]
  | cons e es ih => simp [negationFreeList, Bool.and_eq_true, ih]

theorem buildValueConditionColumn_negationFree (details : SearchParameterDetails)
    (tableName : String) (filter : Filter) (caseSensitive : Bool) (system : Option String)
    (value : String) :
    negationFree (buildValueConditionColumn details tableName filter caseSensitive system
      value) = true := by
  unfold buildValueConditionColumn
  split_ifs <;> simp [negationFree, negationFreeList]

theorem buildValueCondition_negationFree (details : SearchParameterDetails)
    (tableName : String) (filter : Filter) (caseSensitive : Bool) (system : Option String)
    (value : String) :
    negationFree (buildValueCondition details tableName filter caseSensitive system value) =
      true := by
  unfold buildValueCondition
  rw [if_neg (by simp [USE_TOKEN_TABLE])]
  exact buildValueConditionColumn_negationFree _ _ _ _ _ _

theorem buildInValueSetCondition_negationFree (tableName value : String) :
    negationFree (buildInValueSetCondition tableName value) = true := by
  unfold buildInValueSetCondition
  rw [if_neg (by simp [USE_TOKEN_TABLE])]
  rfl

theorem buildWhereCondition_some_negationFree (details : SearchParameterDetails)
    (tableName : String) (filter : Filter) (caseSensitive : Bool) (q : String)
    (h : shouldCompareTokenValue filter.operator = true) :
    ∃ e, buildWhereCondition details tableName filter caseSensitive q = some e ∧
      negationFree e = true := by
  unfold buildWhereCondition
  cases hsp : splitNPipe q with
  | nil =>
    refine ⟨buildValueCondition details tableName filter caseSensitive none q, ?_,
      buildValueCondition_negationFree _ _ _ _ _ _⟩
    show (if filter.operator = .inOp then some (buildInValueSetCondition tableName q)
      else if shouldCompareTokenValue filter.operator then
        some (buildValueCondition details tableName filter caseSensitive none q)
      else none) = _
    by_cases hin : filter.operator = .inOp
    · rw [hin] at h; exact absurd h (by decide)
    · rw [if_neg hin, if_pos h]
  | cons a tail =>
    cases tail with
    | nil =>
      refine ⟨buildValueCondition details tableName filter caseSensitive none q, ?_,
        buildValueCondition_negationFree _ _ _ _ _ _⟩
      show (if filter.operator = .inOp then some (buildInValueSetCondition tableName q)
        else if shouldCompareTokenValue filter.operator then
          some (buildValueCondition details tableName filter caseSensitive none q)
        else none) = _
      by_cases hin : filter.operator = .inOp
      · rw [hin] at h; exact absurd h (by decide)
      · rw [if_neg hin, if_pos h]
    | cons b rest =>
      cases rest with
      | nil =>
        refine ⟨buildValueCondition details tableName filter caseSensitive
          (some (if a.data.isEmpty then NULL_SYSTEM else a)) b, ?_,
          buildValueCondition_negationFree _ _ _ _ _ _⟩
        show (if USE_TOKEN_TABLE then _ else
          some (buildValueCondition details tableName filter caseSensitive
            (some (if a.data.isEmpty then NULL_SYSTEM else a)) b)) = _
        rw [if_neg (by simp [USE_TOKEN_TABLE])]
      | cons c rest2 =>
        refine ⟨buildValueCondition details tableName filter caseSensitive none q, ?_,
          buildValueCondition_negationFree _ _ _ _ _ _⟩
        show (if filter.operator = .inOp then some (buildInValueSetCondition tableName q)
          else if shouldCompareTokenValue filter.operator then
            some (buildValueCondition details tableName filter caseSensitive none q)
          else none) = _
        by_cases hin : filter.operator = .inOp
        · rw [hin] at h; exact absurd h (by decide)
        · rw [if_neg hin, if_pos h]

theorem filterMap_length_and_all {α β : Type} (f : α → Option β) (P : β → Prop)
    (l : List α) (h : ∀ a ∈ l, ∃ b, f a = some b ∧ P b) :
    (l.filterMap f).length = l.length ∧ ∀ b ∈ l.filterMap f, P b := by
  induction l with
  | nil => simp
  | cons a as ih =>
    obtain ⟨b, hb, hPb⟩ := h a (List.mem_cons_self a as)
    obtain ⟨hlen, hall⟩ := ih fun x hx => h x (List.mem_cons_of_mem a hx)
    refine ⟨?_, ?_⟩
    · rw [List.filterMap_cons_some hb, List.length_cons, List.length_cons, hlen]
    · intro c hc
      rw [List.filterMap_cons_some hb] at hc
      rcases List.mem_cons.mp hc with rfl | hc2
      · exact hPb
      · exact hall c hc2

theorem splitSearchOnComma_ne_nil (s : String) : splitSearchOnComma s ≠ [] := by
  unfold splitSearchOnComma splitOnChar
  simp

/-- C7. For a token filter whose operator is NOT or NOT_EQUALS, the built
condition is a single negation applied to the disjunction of the per-value
terms as one unit: there is one term per comma-separated entry, and no
term contains a negation of its own. -/
theorem c7_negated_disjunction (details : SearchParameterDetails)
    (elementDefinitions : List InternalSchemaElement) (resourceType table : String)
    (param : SearchParameter) (code value : String) (operator : FhirOperator)
    (hop : operator = .notOp ∨ operator = .notEquals) :
    ∃ terms, TokenTable.buildWhere details elementDefinitions resourceType table param
        { code := code, operator := operator, value := value } =
        .ok (.negation (.disjunction terms)) ∧
      terms.length = (splitSearchOnComma value).length ∧
      ∀ t ∈ terms, negationFree t = true := by
  have hcompare : shouldCompareTokenValue operator = true := by
    rcases hop with rfl | rfl <;> rfl
  set filter : Filter := { code := code, operator := operator, value := value } with hfilter
  set caseSensitive := isCaseSensitiveSearchParameter param elementDefinitions with hcs
  obtain ⟨hlen, hall⟩ := filterMap_length_and_all
    (fun o => buildWhereCondition details table filter caseSensitive o)
    (fun e => negationFree e = true) (splitSearchOnComma filter.value)
    (fun a _ => buildWhereCondition_some_negationFree details table filter caseSensitive a
      hcompare)
  set subs := (splitSearchOnComma filter.value).filterMap
    (fun o => buildWhereCondition details table filter caseSensitive o) with hsubs
  have hne : subs.isEmpty = false := by
    rw [List.isEmpty_eq_false_iff_exists_mem]
    have : 0 < subs.length := by
      rw [hlen]
      cases hsc : splitSearchOnComma filter.value with
      | nil => exact absurd hsc (splitSearchOnComma_ne_nil _)
      | cons x xs => simp
    exact List.exists_mem_of_length_pos this
  have hexp : buildWhereExpression details table caseSensitive filter =
      some (.disjunction subs) := by
    unfold buildWhereExpression
    rw [← hsubs, if_neg (by simp [hne])]
  have hrow : shouldTokenRowExist filter = .ok false := by
    unfold shouldTokenRowExist
    rw [if_pos (by simp [hfilter, hcompare]), if_pos (by simp [hfilter]; exact hop)]
  refine ⟨subs, ?_, hlen, hall⟩
  unfold TokenTable.buildWhere
  rw [if_neg (by simp [USE_TOKEN_TABLE])]
  unfold buildWhereColumn
  rw [hexp, hrow]
  rfl

theorem c7_negated_disjunction_witness :
    ∃ terms, TokenTable.buildWhere detailsCode edsCode "Observation" "Observation" spCode
        { code := "code", operator := .notEquals, value := "a,b" } =
        .ok (.negation (.disjunction terms)) ∧
      terms.length = (splitSearchOnComma "a,b").length ∧
      ∀ t ∈ terms, negationFree t = true :=
  c7_negated_disjunction detailsCode edsCode "Observation" "Observation" spCode "code" "a,b"
    .notEquals (Or.inr rfl)

theorem processExpression_valueDateTime (schema : Schema) (resourceType : String)
    (builder : SearchParameterDetailsBuilder) (e : Atom) (b : SearchParameterDetailsBuilder)
    (hdt : strEndsWith (flattenedExpressionString (flattenAtom e))
      "extension.valueDateTime" = true)
    (h : processExpression schema resourceType builder e = .ok b) :
    b.array = false := by
  unfold processExpression at h
  simp only [hdt, if_true] at h
  obtain ⟨a, _, hb⟩ := exceptMap_eq_ok h
  rw [hb]

/-- C8. A path expression whose flattened form ends in
"extension.value.code" or "extension.value.coding.code" is forced to an
array plan with narrowed type code, skipping the schema walk entirely
(the result holds for every schema); and a compiled plan for an
expression whose flattened form ends in "extension.valueDateTime" always
has isArray = false, whatever the schema walk produced. -/
theorem c8_extension_overrides (schema : Schema) (resourceType : String)
    (searchParam : SearchParameter) :
    (∀ e : Atom, isSingleBooleanOp (flattenAtom e) = false →
      (strEndsWith (flattenedExpressionString (flattenAtom e)) "extension.value.code" = true ∨
        strEndsWith (flattenedExpressionString (flattenAtom e))
          "extension.value.coding.code" = true) →
      strEndsWith (flattenedExpressionString (flattenAtom e))
        "extension.valueDateTime" = false →
      buildSearchParameterBuilder schema resourceType [e] =
        .ok { elementDefinitions := [], propertyTypes := ["code"], array := true } ∧
      ∃ d, buildSearchParameterDetails schema resourceType searchParam [e] = .ok d ∧
        d.array = true) ∧
    (∀ (e : Atom) (d : SearchParameterDetails),
      strEndsWith (flattenedExpressionString (flattenAtom e))
        "extension.valueDateTime" = true →
      buildSearchParameterDetails schema resourceType searchParam [e] = .ok d →
      d.array = false) := by
  constructor
  · intro e hb hsfx hdt
    have hpe : processExpression schema resourceType
        { elementDefinitions := [], propertyTypes := [], array := false } e =
        .ok { elementDefinitions := [], propertyTypes := ["code"], array := true } := by
      simp only [processExpression]
      rw [if_neg (by simp [hb]), if_pos (by rw [Bool.or_eq_true]; exact hsfx)]
      simp [hdt, insertPropertyType, Except.map]
    have hbuilder : buildSearchParameterBuilder schema resourceType [e] =
        .ok { elementDefinitions := [], propertyTypes := ["code"], array := true } := by
      unfold buildSearchParameterBuilder
      simp [List.foldlM, hpe]
    refine ⟨hbuilder, ?_⟩
    refine ⟨{ columnName := convertCodeToColumnName searchParam.code,
              type := getSearchParameterType searchParam ["code"],
              elementDefinitions := [],
              array := true,
              implementation := classifyImplementation searchParam
                { elementDefinitions := [], propertyTypes := ["code"], array := true } },
      ?_, rfl⟩
    unfold buildSearchParameterDetails
    rw [hbuilder]
    rfl
  · intro e d hdt hok
    unfold buildSearchParameterDetails at hok
    obtain ⟨b, hb, hd⟩ := exceptMap_eq_ok hok
    have hbarr : b.array = false := by
      unfold buildSearchParameterBuilder at hb
      simp only [List.foldlM_cons, List.foldlM_nil] at hb
      have hfold : buildSearchParameterBuilder schema resourceType [e] =
          processExpression schema resourceType
            { elementDefinitions := [], propertyTypes := [], array := false } e := by
        unfold buildSearchParameterBuilder
        rw [List.foldlM_cons]
        simp only [List.foldlM_nil]
        exact bind_pure _
      have hb2 : processExpression schema resourceType
          { elementDefinitions := [], propertyTypes := [], array := false } e = .ok b := by
        rw [← hfold]
        exact hb
      exact processExpression_valueDateTime schema resourceType _ e b hdt hb2
    rw [hd]
    exact hbarr

theorem c8_extension_overrides_witness :
    buildSearchParameterBuilder schemaW "Patient" [atomExtValueCode] =
      .ok { elementDefinitions := [], propertyTypes := ["code"], array := true } ∧
    ∃ d, buildSearchParameterDetails schemaW "Patient" spAssertedDate [atomExtValueDateTime] =
      .ok d ∧ d.array = false := by
  constructor
  · exact ((c8_extension_overrides schemaW "Patient" spAssertedDate).1 atomExtValueCode
      (by decide) (Or.inl (by decide)) (by decide)).1
  · refine ⟨assertedDatePlan, rfl, ?_⟩
    exact (c8_extension_overrides schemaW "Patient" spAssertedDate).2 atomExtValueDateTime
      assertedDatePlan (by decide) rfl

/-- C9. Compilation is a deterministic pure function of its inputs:
compiling the same (schema, resourceType, parameter, expressions) twice
through the cached getter yields structurally equal plans, whether the
first call was served from the cache or stored its freshly built result. -/
theorem c9_compile_deterministic (schema : Schema) (cache : DetailsCache)
    (resourceType : String) (searchParam : SearchParameter) (expressions : List Atom)
    (r₁ r₂ : SearchParameterDetails) (c₁ c₂ : DetailsCache)
    (h₁ : getSearchParameterDetails schema cache resourceType searchParam expressions =
      .ok (r₁, c₁))
    (h₂ : getSearchParameterDetails schema c₁ resourceType searchParam expressions =
      .ok (r₂, c₂)) :
    r₁ = r₂ := by
  unfold getSearchParameterDetails at h₁ h₂
  cases hl : lookupDetails cache resourceType searchParam.code with
  | some d =>
    rw [hl] at h₁
    simp only [Except.ok.injEq, Prod.mk.injEq] at h₁
    obtain ⟨hr, hc⟩ := h₁
    rw [← hc, hl] at h₂
    simp only [Except.ok.injEq, Prod.mk.injEq] at h₂
    rw [← hr, ← h₂.1]
  | none =>
    rw [hl] at h₁
    obtain ⟨a, ha, hpair⟩ := exceptMap_eq_ok h₁
    have hr : r₁ = a := congrArg Prod.fst hpair
    have hc : c₁ = setSearchParameterDetails cache resourceType searchParam.code a :=
      congrArg Prod.snd hpair
    rw [hc] at h₂
    have hl2 : lookupDetails
        (setSearchParameterDetails cache resourceType searchParam.code a) resourceType
        searchParam.code = some a := by
      unfold setSearchParameterDetails lookupDetails
      rw [if_pos rfl]
    rw [hl2] at h₂
    simp only [Except.ok.injEq, Prod.mk.injEq] at h₂
    rw [hr, ← h₂.1]

theorem c9_compile_deterministic_witness : detailsColumnPlan = detailsColumnPlan :=
  c9_compile_deterministic schemaEmpty [] "Observation" spCode [] detailsColumnPlan
    detailsColumnPlan cacheAfterFirst cacheAfterFirst rfl rfl

end Medplum
